import Mathlib

/-!
Verification of the gap-based separator detector and the two request
handlers of the Nasa FastAPI repository (routers/graph.py and
routers/predict.py), shallowly embedded in Lean 4.  Time, flux and
threshold values are modelled as rationals.
-/

namespace Nasa

/-- Scan of the sorted time axis: `np.diff(t)` followed by
`t[1:][diffs > gap_threshold]` from `detect_separators` in
routers/graph.py, expressed as a single left-to-right pass over the
sorted list. -/
def detectSorted (th : ℚ) : List ℚ → List ℚ
  | [] => []
  | a :: t =>
    match t with
    | [] => []
    | b :: _ => if b - a > th then b :: detectSorted th t else detectSorted th t

/-- `detect_separators` from routers/graph.py: sort the time values
ascending, return `[]` when fewer than two values, otherwise emit every
sorted value whose gap to its predecessor strictly exceeds
`gap_threshold` (default 20, as in the Python signature). -/
def detect_separators (times : List ℚ) (gap_threshold : ℚ := 20) : List ℚ :=
  if (List.insertionSort (· ≤ ·) times).length < 2 then []
  else detectSorted gap_threshold (List.insertionSort (· ≤ ·) times)

/-- Modelled from the spec: the indexed description of the detector
output — for every `i` with `sorted[i+1] - sorted[i] > threshold`, emit
`sorted[i+1]`. -/
def specBoundaries (sorted : List ℚ) (th : ℚ) : List ℚ :=
  (List.range (sorted.length - 1)).filterMap fun i =>
    if sorted.getD (i + 1) 0 - sorted.getD i 0 > th then some (sorted.getD (i + 1) 0)
    else none

theorem filterMap_range_shift {α : Type} (f g : ℕ → Option α) (n : ℕ)
    (h : ∀ i, f (i + 1) = g i) :
    List.filterMap f (List.range (n + 1)) =
      (f 0).toList ++ List.filterMap g (List.range n) := by
  rw [List.range_succ_eq_map, List.filterMap_cons, List.filterMap_map]
  have hc : f ∘ Nat.succ = g := funext h
  rw [hc]
  cases hf : f 0 <;> simp [hf]

theorem detectSorted_cons₂ (th a b : ℚ) (t : List ℚ) :
    detectSorted th (a :: b :: t) =
      if b - a > th then b :: detectSorted th (b :: t) else detectSorted th (b :: t) := rfl

theorem specBoundaries_cons (a b : ℚ) (t : List ℚ) (th : ℚ) :
    specBoundaries (a :: b :: t) th =
      (if b - a > th then [b] else []) ++ specBoundaries (b :: t) th := by
  unfold specBoundaries
  simp only [List.length_cons, Nat.add_sub_cancel]
  rw [filterMap_range_shift
    (fun i => if (a :: b :: t).getD (i + 1) 0 - (a :: b :: t).getD i 0 > th
      then some ((a :: b :: t).getD (i + 1) 0) else none)
    (fun i => if (b :: t).getD (i + 1) 0 - (b :: t).getD i 0 > th
      then some ((b :: t).getD (i + 1) 0) else none)
    t.length
    (fun i => by simp [List.getD_cons_succ])]
  by_cases h : b - a > th <;>
    simp [h, List.getD_cons_succ, List.getD_cons_zero]

theorem detectSorted_eq_spec (th : ℚ) (l : List ℚ) :
    detectSorted th l = specBoundaries l th := by
  induction l with
  | nil => rfl
  | cons a t ih =>
    cases t with
    | nil => rfl
    | cons b t' =>
      rw [specBoundaries_cons, detectSorted_cons₂]
      by_cases h : b - a > th <;> simp [h, ih]

theorem detectSorted_sublist_tail (th : ℚ) (l : List ℚ) :
    (detectSorted th l).Sublist l.tail := by
  induction l with
  | nil => exact List.nil_sublist _
  | cons a t ih =>
    cases t with
    | nil => exact List.nil_sublist _
    | cons b t' =>
      show (detectSorted th (a :: b :: t')).Sublist (b :: t')
      rw [detectSorted_cons₂]
      by_cases h : b - a > th
      · rw [if_pos h]
        exact List.Sublist.cons₂ b ih
      · rw [if_neg h]
        exact ih.cons b

theorem detectSorted_sublist (th : ℚ) (l : List ℚ) :
    (detectSorted th l).Sublist l :=
  (detectSorted_sublist_tail th l).trans (List.tail_sublist l)

theorem detectSorted_short (th : ℚ) (l : List ℚ) (h : l.length < 2) :
    detectSorted th l = [] := by
  match l with
  | [] => rfl
  | [a] => rfl
  | a :: b :: t =>
    exfalso
    have hl : (a :: b :: t).length = t.length + 2 := by simp
    omega

theorem detect_separators_eq_detectSorted (times : List ℚ) (th : ℚ) :
    detect_separators times th = detectSorted th (List.insertionSort (· ≤ ·) times) := by
  unfold detect_separators
  by_cases h : (List.insertionSort (· ≤ ·) times).length < 2
  · rw [if_pos h, detectSorted_short th _ h]
  · rw [if_neg h]

theorem detect_separators_sorted_le (times : List ℚ) (th : ℚ) :
    List.Sorted (· ≤ ·) (detect_separators times th) := by
  rw [detect_separators_eq_detectSorted]
  exact (List.sorted_insertionSort (· ≤ ·) times).sublist (detectSorted_sublist th _)

/-- **C1.** The detector returns exactly the values `sorted[i+1]` over
every index `i` of the ascending sort of the input whose consecutive
difference strictly exceeds the threshold; the result is in ascending
order; fewer than two values give the empty sequence; and on
`[0, 5, 30, 35]` with threshold `20` it returns `[30]`. -/
theorem detect_separators_indexed_spec (times : List ℚ) (th : ℚ) :
    detect_separators times th = specBoundaries (List.insertionSort (· ≤ ·) times) th
    ∧ (times.length < 2 → detect_separators times th = [])
    ∧ List.Sorted (· ≤ ·) (detect_separators times th)
    ∧ detect_separators [0, 5, 30, 35] 20 = [30] := by
  refine ⟨?_, ?_, detect_separators_sorted_le times th,
    by norm_num [detect_separators, detectSorted]⟩
  · rw [detect_separators_eq_detectSorted, detectSorted_eq_spec]
  · intro h
    rw [detect_separators_eq_detectSorted]
    have hlen : (List.insertionSort (· ≤ ·) times).length = times.length :=
      (List.perm_insertionSort (· ≤ ·) times).length_eq
    exact detectSorted_short th _ (by rw [hlen]; exact h)

theorem detect_separators_indexed_spec_witness :
    ([(7 : ℚ)].length < 2) ∧ detect_separators [(7 : ℚ)] 20 = [] :=
  ⟨by decide, (detect_separators_indexed_spec [(7 : ℚ)] 20).2.1 (by decide)⟩

theorem detectSorted_chain_le (th : ℚ) (l : List ℚ)
    (h : List.Chain' (fun a b => b - a ≤ th) l) : detectSorted th l = [] := by
  induction l with
  | nil => rfl
  | cons a t ih =>
    cases t with
    | nil => rfl
    | cons b t' =>
      have hab : b - a ≤ th := (List.chain'_cons.mp h).1
      have h' : List.Chain' (fun a b => b - a ≤ th) (b :: t') := (List.chain'_cons.mp h).2
      rw [detectSorted_cons₂, if_neg (not_lt.mpr hab)]
      exact ih h'

/-- **C2.** A gap exactly equal to the threshold is not a boundary: if
every consecutive gap of the sorted values is at most the threshold the
detector returns the empty sequence; in particular `[0, 20]` with
threshold `20` yields `[]`. -/
theorem detect_separators_ties_excluded (times : List ℚ) (th : ℚ) :
    (List.Chain' (fun a b => b - a ≤ th) (List.insertionSort (· ≤ ·) times) →
      detect_separators times th = [])
    ∧ detect_separators [0, 20] 20 = [] := by
  constructor
  · intro h
    rw [detect_separators_eq_detectSorted]
    exact detectSorted_chain_le th _ h
  · norm_num [detect_separators, detectSorted]

theorem detect_separators_ties_excluded_witness :
    List.Chain' (fun a b => b - a ≤ (20 : ℚ)) (List.insertionSort (· ≤ ·) [(0 : ℚ), 20])
    ∧ detect_separators [(0 : ℚ), 20] 20 = [] :=
  ⟨by norm_num [List.insertionSort, List.orderedInsert, List.chain'_cons],
    (detect_separators_ties_excluded [(0 : ℚ), 20] 20).1
      (by norm_num [List.insertionSort, List.orderedInsert, List.chain'_cons])⟩

theorem insertionSort_eq_of_perm {l l' : List ℚ} (h : l.Perm l') :
    List.insertionSort (· ≤ ·) l = List.insertionSort (· ≤ ·) l' :=
  List.eq_of_perm_of_sorted
    ((List.perm_insertionSort _ l).trans (h.trans (List.perm_insertionSort _ l').symm))
    (List.sorted_insertionSort _ l) (List.sorted_insertionSort _ l')

/-- **C3.** The detector is invariant under permutation of its input
(it sorts internally), and the unsorted input `[35, 0, 30, 5]` with
threshold `20` yields `[30]`, the same as the sorted input. -/
theorem detect_separators_perm_invariant (l l' : List ℚ) (th : ℚ) (h : l.Perm l') :
    detect_separators l th = detect_separators l' th
    ∧ detect_separators [35, 0, 30, 5] 20 = [30] := by
  constructor
  · unfold detect_separators
    rw [insertionSort_eq_of_perm h]
  · norm_num [detect_separators, detectSorted]

theorem detect_separators_perm_invariant_witness :
    ([(1 : ℚ), 2].Perm [2, 1])
    ∧ detect_separators [(1 : ℚ), 2] 5 = detect_separators [(2 : ℚ), 1] 5 :=
  ⟨by decide, (detect_separators_perm_invariant [(1 : ℚ), 2] [2, 1] 5 (by decide)).1⟩

/-! ### The tolerant numeric-list parser of routers/graph.py -/

/-- Leading run of decimal digits of a character list together with the
remaining characters: the greedy `\d+` step of the regex used by
`_parse_separators`. -/
def takeDigits : List Char → List Char × List Char
  | [] => ([], [])
  | c :: cs =>
    if c.isDigit then
      let p := takeDigits cs
      (c :: p.1, p.2)
    else ([], c :: cs)

/-- The optional `(?:\.\d+)?` tail of a regex match: extend the match
`pre` with a decimal point and the following digits when present. -/
def matchFrac (pre : List Char) : List Char → List Char × List Char
  | '.' :: r =>
    match r with
    | d :: _ =>
      if d.isDigit then
        let q := takeDigits r
        (pre ++ '.' :: q.1, q.2)
      else (pre, '.' :: r)
    | [] => (pre, ['.'])
  | rest => (pre, rest)

/-- One anchored attempt of the regex `[+-]?\d+(?:\.\d+)?` at the head
of the character list: on success, the matched token and the remaining
characters. -/
def matchNumber : List Char → Option (List Char × List Char)
  | [] => none
  | c :: cs =>
    if c = '+' ∨ c = '-' then
      match cs with
      | d :: _ =>
        if d.isDigit then
          let p := takeDigits cs
          some (matchFrac (c :: p.1) p.2)
        else none
      | [] => none
    else if c.isDigit then
      let p := takeDigits (c :: cs)
      some (matchFrac p.1 p.2)
    else none

/-- The `re.findall` scanning loop: try an anchored match at every
position, consuming matched tokens; each step shortens the list, so the
initial length is enough fuel. -/
def findallAux : ℕ → List Char → List (List Char)
  | 0, _ => []
  | _, [] => []
  | fuel + 1, c :: cs =>
    match matchNumber (c :: cs) with
    | some p => p.1 :: findallAux fuel p.2
    | none => findallAux fuel cs

/-- `re.findall` of `[+-]?\d+(?:\.\d+)?` over a character list. -/
def findallNumbers (l : List Char) : List (List Char) := findallAux l.length l

/-- Decimal value of a digit string. -/
def digitsVal (ds : List Char) : ℕ :=
  ds.foldl (fun n c => 10 * n + (c.toNat - 48)) 0

/-- Python `float(x)` on an unsigned token matched by the regex, as an
exact rational. -/
def floatOfDigits (tok : List Char) : ℚ :=
  match (takeDigits tok).2 with
  | '.' :: r => (digitsVal (takeDigits tok).1 : ℚ) +
      (digitsVal (takeDigits r).1 : ℚ) / (10 : ℚ) ^ (takeDigits r).1.length
  | _ => (digitsVal (takeDigits tok).1 : ℚ)

/-- Python `float(x)` on a full token `[+-]?\d+(?:\.\d+)?`. -/
def floatOfToken : List Char → ℚ
  | '+' :: rest => floatOfDigits rest
  | '-' :: rest => - floatOfDigits rest
  | tok => floatOfDigits tok

/-- `_parse_separators` from routers/graph.py: `None` and the empty
string give `[]` (`if not s`); otherwise commas are replaced by spaces
and every regex match of `[+-]?\d+(?:\.\d+)?` is converted to a
number, in the order found. -/
def _parse_separators (s : Option String) : List ℚ :=
  match s with
  | none => []
  | some str =>
    if str = "" then []
    else
      (findallNumbers ((str.toList).map (fun c => if c = ',' then ' ' else c))).map
        floatOfToken

theorem matchNumber_cons (c : Char) (cs : List Char) :
    matchNumber (c :: cs) =
      if c = '+' ∨ c = '-' then
        match cs with
        | d :: _ =>
          if d.isDigit then some (matchFrac (c :: (takeDigits cs).1) (takeDigits cs).2)
          else none
        | [] => none
      else if c.isDigit then
        some (matchFrac (takeDigits (c :: cs)).1 (takeDigits (c :: cs)).2)
      else none := rfl

theorem findallAux_succ_cons (f : ℕ) (c : Char) (cs : List Char) :
    findallAux (f + 1) (c :: cs) =
      match matchNumber (c :: cs) with
      | some p => p.1 :: findallAux f p.2
      | none => findallAux f cs := rfl

theorem matchNumber_none (c : Char) (cs : List Char)
    (h : ∀ x ∈ c :: cs, x.isDigit = false) : matchNumber (c :: cs) = none := by
  rw [matchNumber_cons]
  by_cases hs : c = '+' ∨ c = '-'
  · rw [if_pos hs]
    cases cs with
    | nil => rfl
    | cons d ds =>
      have hd : d.isDigit = false := h d (by simp)
      simp [hd]
  · rw [if_neg hs, if_neg (by simp [h c (List.mem_cons_self c cs)])]

theorem findallAux_no_digit (fuel : ℕ) (l : List Char)
    (h : ∀ x ∈ l, x.isDigit = false) : findallAux fuel l = [] := by
  induction fuel generalizing l with
  | zero => cases l <;> rfl
  | succ f ih =>
    cases l with
    | nil => rfl
    | cons c cs =>
      rw [findallAux_succ_cons, matchNumber_none c cs h]
      exact ih cs (fun x hx => h x (List.mem_cons_of_mem c hx))

theorem parse_no_digit (s : String) (h : ∀ c ∈ s.toList, c.isDigit = false) :
    _parse_separators (some s) = [] := by
  have hmap : ∀ x ∈ s.toList.map (fun c => if c = ',' then ' ' else c),
      x.isDigit = false := by
    intro x hx
    rcases List.mem_map.mp hx with ⟨c, hc, rfl⟩
    by_cases hcc : c = ','
    · subst hcc
      decide
    · simp only [if_neg hcc]
      exact h c hc
  show (if s = "" then [] else
      (findallNumbers ((s.toList).map (fun c => if c = ',' then ' ' else c))).map
        floatOfToken) = []
  by_cases he : s = ""
  · rw [if_pos he]
  · rw [if_neg he, findallNumbers, findallAux_no_digit _ _ hmap, List.map_nil]

/-- **C5.** The tolerant parser extracts every embedded number from a
free-form string regardless of separator characters, including negative
and decimal numbers; `"370,730"`, `"370 730"` and `"370|730"` all parse
to `[370, 730]`; a missing, empty or all-non-numeric string parses to
`[]`. -/
theorem parse_separators_tolerant :
    _parse_separators (some "370,730") = [370, 730]
    ∧ _parse_separators (some "370 730") = [370, 730]
    ∧ _parse_separators (some "370|730") = [370, 730]
    ∧ _parse_separators none = []
    ∧ _parse_separators (some "") = []
    ∧ _parse_separators (some "-2.5 x 3") = [-(5 / 2), 3]
    ∧ (∀ s : String, (∀ c ∈ s.toList, c.isDigit = false) →
        _parse_separators (some s) = []) := by
  refine ⟨by decide, by decide, by decide, by decide, by decide, ?_, parse_no_digit⟩
  have hm : ("-2.5 x 3".toList.map (fun c => if c = ',' then ' ' else c)) =
      ['-', '2', '.', '5', ' ', 'x', ' ', '3'] := by decide
  have hf : findallNumbers ['-', '2', '.', '5', ' ', 'x', ' ', '3'] =
      [['-', '2', '.', '5'], ['3']] := by decide
  have h1 : floatOfToken ['-', '2', '.', '5'] = -(5 / 2) := by
    norm_num [floatOfToken, floatOfDigits,
      show takeDigits ['2', '.', '5'] = (['2'], ['.', '5']) from by decide,
      show takeDigits ['5'] = (['5'], []) from by decide,
      show digitsVal ['2'] = 2 from by decide,
      show digitsVal ['5'] = 5 from by decide]
  have h2 : floatOfToken ['3'] = 3 := by decide
  simp [_parse_separators, show ("-2.5 x 3" : String) ≠ "" from by decide, hm, hf, h1, h2]

theorem parse_separators_tolerant_witness :
    (∀ c ∈ ("no numbers here!" : String).toList, c.isDigit = false)
    ∧ _parse_separators (some "no numbers here!") = [] :=
  ⟨by decide,
    parse_separators_tolerant.2.2.2.2.2.2 "no numbers here!" (by decide)⟩

/-! ### Strict monotonicity of the detector output -/

theorem detectSorted_head_lt (th : ℚ) (l : List ℚ) (a : ℚ) (hth : 0 ≤ th)
    (hs : List.Sorted (· ≤ ·) (a :: l)) :
    ∀ x ∈ detectSorted th (a :: l), a < x := by
  induction l generalizing a with
  | nil =>
    intro x hx
    rw [show detectSorted th [a] = [] from rfl] at hx
    cases hx
  | cons b t ih =>
    intro x hx
    rw [detectSorted_cons₂] at hx
    have hab : a ≤ b := (List.sorted_cons.mp hs).1 b (by simp)
    have hsb : List.Sorted (· ≤ ·) (b :: t) := (List.sorted_cons.mp hs).2
    by_cases h : b - a > th
    · rw [if_pos h] at hx
      rcases List.mem_cons.mp hx with rfl | hx'
      · linarith
      · exact lt_of_le_of_lt hab (ih b hsb x hx')
    · rw [if_neg h] at hx
      exact lt_of_le_of_lt hab (ih b hsb x hx)

theorem detectSorted_sorted_lt (th : ℚ) (l : List ℚ) (hth : 0 ≤ th)
    (hs : List.Sorted (· ≤ ·) l) :
    List.Sorted (· < ·) (detectSorted th l) := by
  induction l with
  | nil => exact List.sorted_nil
  | cons a t ih =>
    cases t with
    | nil => exact List.sorted_nil
    | cons b t' =>
      have hsb : List.Sorted (· ≤ ·) (b :: t') := (List.sorted_cons.mp hs).2
      rw [detectSorted_cons₂]
      by_cases h : b - a > th
      · rw [if_pos h]
        exact List.sorted_cons.mpr ⟨detectSorted_head_lt th t' b hth hsb, ih hsb⟩
      · rw [if_neg h]
        exact ih hsb

/-- **C9.** For every input list and strictly positive threshold the
detector output is strictly increasing — in particular it has no
duplicate boundary values, even when the input has duplicate times. -/
theorem detect_separators_strict_increasing (times : List ℚ) (th : ℚ) (hth : 0 < th) :
    List.Sorted (· < ·) (detect_separators times th)
    ∧ (detect_separators times th).Nodup := by
  have hs : List.Sorted (· < ·) (detect_separators times th) := by
    rw [detect_separators_eq_detectSorted]
    exact detectSorted_sorted_lt th _ (le_of_lt hth) (List.sorted_insertionSort _ _)
  exact ⟨hs, hs.imp (fun h => ne_of_lt h)⟩

theorem detect_separators_strict_increasing_witness :
    ((0 : ℚ) < 20)
    ∧ (List.Sorted (· < ·) (detect_separators [0, 0, 30, 30] 20)
      ∧ (detect_separators [(0 : ℚ), 0, 30, 30] 20).Nodup) :=
  ⟨by norm_num, detect_separators_strict_increasing [0, 0, 30, 30] 20 (by norm_num)⟩

/-! ### The csv_to_graph handler of routers/graph.py -/

/-- An HTTP error response (`HTTPException`): status code and detail
message. -/
structure HttpError where
  status : ℕ
  detail : String
deriving DecidableEq

instance {ε α : Type} [DecidableEq ε] [DecidableEq α] : DecidableEq (Except ε α) :=
  fun x y =>
    match x, y with
    | .error a, .error b =>
      match decEq a b with
      | isTrue h => isTrue (by rw [h])
      | isFalse h => isFalse (fun hc => h (by injection hc))
    | .ok a, .ok b =>
      match decEq a b with
      | isTrue h => isTrue (by rw [h])
      | isFalse h => isFalse (fun hc => h (by injection hc))
    | .error _, .ok _ => isFalse (fun hc => by injection hc)
    | .ok _, .error _ => isFalse (fun hc => by injection hc)

/-- Python `filename.endswith(".csv")`, expressed on the character
list of the filename. -/
def endsWithCsv (filename : String) : Bool :=
  ".csv".toList.isSuffixOf filename.toList

/-- The separator-relevant behaviour of the `csv_to_graph` handler in
routers/graph.py: reject a filename not ending in ".csv" and a table
without the required columns; otherwise sort the data frame by time,
parse the manual separator text, and fall back to gap auto-detection
exactly when the parse produced no values.  `auto_gap_threshold` is
`none` when the form field is absent, in which case FastAPI supplies
the declared default `20.0`.  The returned value is the list `xs` of
vertical-marker positions the handler draws on the plot. -/
def csv_to_graph (filename : String) (columns : List String) (times : List ℚ)
    (separators : Option String) (auto_gap_threshold : Option ℚ) :
    Except HttpError (List ℚ) :=
  if endsWithCsv filename = false then
    .error ⟨400, "El archivo debe ser un CSV."⟩
  else if ¬ ("time" ∈ columns ∧ "flux" ∈ columns) then
    .error ⟨400, "El CSV debe contener las columnas \x27time\x27 y \x27flux\x27."⟩
  else
    let df_times := List.insertionSort (· ≤ ·) times
    let xs := _parse_separators separators
    if xs.isEmpty then .ok (detect_separators df_times (auto_gap_threshold.getD 20))
    else .ok xs

theorem csv_to_graph_valid (filename : String) (columns : List String) (times : List ℚ)
    (s : Option String) (th : Option ℚ)
    (hf : endsWithCsv filename = true)
    (hc : "time" ∈ columns ∧ "flux" ∈ columns) :
    csv_to_graph filename columns times s th =
      if (_parse_separators s).isEmpty then
        .ok (detect_separators (List.insertionSort (· ≤ ·) times) (th.getD 20))
      else .ok (_parse_separators s) := by
  unfold csv_to_graph
  rw [if_neg (by simp [hf]), if_neg (not_not_intro hc)]

/-- **C4.** When the caller's separator text parses to a non-empty
list, the handler uses exactly those values, in the order found, with
no re-sorting; the automatic detector is invoked exactly when no manual
values were parsed; concretely, manual text "730, 370" is used verbatim
as `[730, 370]`, not re-sorted. -/
theorem manual_separators_verbatim (filename : String) (columns : List String)
    (times : List ℚ) (s : Option String) (th : Option ℚ)
    (hf : endsWithCsv filename = true)
    (hc : "time" ∈ columns ∧ "flux" ∈ columns) :
    (_parse_separators s ≠ [] →
      csv_to_graph filename columns times s th = .ok (_parse_separators s))
    ∧ (_parse_separators s = [] →
      csv_to_graph filename columns times s th =
        .ok (detect_separators (List.insertionSort (· ≤ ·) times) (th.getD 20)))
    ∧ csv_to_graph "a.csv" ["time", "flux"] [] (some "730, 370") none = .ok [730, 370] := by
  refine ⟨?_, ?_, by decide⟩
  · intro hne
    rw [csv_to_graph_valid _ _ _ _ _ hf hc, if_neg (by simp [hne])]
  · intro hnil
    rw [csv_to_graph_valid _ _ _ _ _ hf hc, if_pos (by simp [hnil])]

theorem manual_separators_verbatim_witness :
    (endsWithCsv "a.csv" = true)
    ∧ ("time" ∈ ["time", "flux"] ∧ "flux" ∈ ["time", "flux"])
    ∧ (_parse_separators (some "1 2") ≠ [])
    ∧ csv_to_graph "a.csv" ["time", "flux"] [] (some "1 2") none =
        .ok (_parse_separators (some "1 2")) :=
  ⟨by decide, by decide, by decide,
    (manual_separators_verbatim "a.csv" ["time", "flux"] [] (some "1 2") none
      (by decide) (by decide)).1 (by decide)⟩

/-- **C8 (counterexample).** With a supplied non-positive threshold
`-1` the handler passes `-1` to the detector unchanged: on times
`[0, 0]` it returns the boundary `[0]`, whereas the detector at the
default threshold `20` gives `[]`; the threshold actually used is the
non-positive `-1`, not a normalized default. -/
theorem auto_gap_threshold_not_normalized_cex :
    ((some (-1 : ℚ)).getD 20 ≤ 0)
    ∧ csv_to_graph "a.csv" ["time", "flux"] [0, 0] none (some (-1)) = .ok [0]
    ∧ detect_separators [0, 0] 20 = [] := by
  refine ⟨by norm_num [Option.getD_some], ?_,
    by norm_num [detect_separators, detectSorted]⟩
  rw [csv_to_graph_valid _ _ _ _ _ (by decide) (by decide)]
  norm_num [_parse_separators, detect_separators, detectSorted,
    List.insertionSort, List.orderedInsert, Option.getD_some]

/-- **C8 (amended).** The threshold the handler passes to the detector
is the caller's value whenever one is supplied — including non-positive
values, which are not normalized — and the default `20.0` exactly when
the form field is absent. -/
theorem auto_gap_threshold_passthrough (filename : String) (columns : List String)
    (times : List ℚ) (th : ℚ)
    (hf : endsWithCsv filename = true)
    (hc : "time" ∈ columns ∧ "flux" ∈ columns) :
    csv_to_graph filename columns times none (some th) =
      .ok (detect_separators (List.insertionSort (· ≤ ·) times) th)
    ∧ csv_to_graph filename columns times none none =
      .ok (detect_separators (List.insertionSort (· ≤ ·) times) 20) := by
  constructor
  · rw [csv_to_graph_valid _ _ _ _ _ hf hc]
    rfl
  · rw [csv_to_graph_valid _ _ _ _ _ hf hc]
    rfl

theorem auto_gap_threshold_passthrough_witness :
    (endsWithCsv "a.csv" = true)
    ∧ ("time" ∈ ["time", "flux"] ∧ "flux" ∈ ["time", "flux"])
    ∧ csv_to_graph "a.csv" ["time", "flux"] [] none (some 5) =
        .ok (detect_separators (List.insertionSort (· ≤ ·) []) 5) :=
  ⟨by decide, by decide,
    (auto_gap_threshold_passthrough "a.csv" ["time", "flux"] [] 5
      (by decide) (by decide)).1⟩

/-! ### The predict_from_csv handler of routers/predict.py -/

/-- A pandas data frame, modelled column-oriented: an ordered list of
(column name, column values) pairs. -/
structure DataFrame where
  cols : List (String × List ℚ)
deriving DecidableEq

/-- `df.columns`. -/
def DataFrame.columns (df : DataFrame) : List String := df.cols.map Prod.fst

/-- `name in df.columns`. -/
def DataFrame.hasCol (df : DataFrame) (name : String) : Bool :=
  df.cols.any (fun p => p.1 == name)

/-- `df[name]`: the values of column `name` (`[]` when absent). -/
def DataFrame.getCol (df : DataFrame) (name : String) : List ℚ :=
  match df.cols.find? (fun p => p.1 == name) with
  | some p => p.2
  | none => []

/-- `df[name] = vals`: overwrite the column in place when it already
exists, otherwise append it as the last column (pandas column
assignment). -/
def DataFrame.setCol (df : DataFrame) (name : String) (vals : List ℚ) : DataFrame :=
  if df.hasCol name then
    ⟨df.cols.map (fun p => if p.1 == name then (name, vals) else p)⟩
  else ⟨df.cols ++ [(name, vals)]⟩

/-- `df[list(feature_names)]`: the selected feature columns, in the
given order. -/
def DataFrame.selectCols (df : DataFrame) (names : List String) : List (List ℚ) :=
  names.map (fun c => df.getCol c)

/-- Python `", ".join(missing)`. -/
def joinComma : List String → String
  | [] => ""
  | [x] => x
  | x :: xs => x ++ ", " ++ joinComma xs

/-- `FEATURE_COLS` from routers/predict.py: the 16 named feature
columns. -/
def FEATURE_COLS : List String :=
  ["koi_score", "koi_fpflag_nt", "koi_fpflag_ss", "koi_fpflag_co", "koi_fpflag_ec",
   "koi_period", "koi_impact", "koi_duration", "koi_depth", "koi_prad", "koi_teq",
   "koi_insol", "koi_model_snr", "koi_steff", "koi_slogg", "koi_srad"]

/-- Modelled from the spec: the pre-trained scoring pipeline loaded
from `models/gradientboost_exoplanets.pkl`, an artifact that is not
part of the repository sources.  `feature_names` stands for
`model.named_steps["imputer"].feature_names_in_` (which the spec fixes
as the 16 named feature columns), `imputer_present` is whether the
pipeline has the expected `imputer` step, and `predict_proba` and
`predict` score the selected feature columns, returning one
probability in `[0, 1]` and one label per row. -/
structure PredictionModel where
  feature_names : List String
  imputer_present : Bool
  predict_proba : List (List ℚ) → List ℚ
  predict : List (List ℚ) → List ℚ
  proba_unit : ∀ X p, p ∈ predict_proba X → 0 ≤ p ∧ p ≤ 1
  proba_len : ∀ X n, X ≠ [] → (∀ c ∈ X, c.length = n) → (predict_proba X).length = n
  pred_len : ∀ X n, X ≠ [] → (∀ c ∈ X, c.length = n) → (predict X).length = n

/-- The `predict_from_csv` handler of routers/predict.py: reject a
filename not ending in ".csv"; fail with 500 when the loaded pipeline
has no `imputer` step; reject with 400 naming the missing columns when
any required feature column is absent; otherwise score the selected
feature columns and attach the two result columns to the frame.  The
returned frame is what the handler writes to the response CSV. -/
def predict_from_csv (m : PredictionModel) (filename : String) (df : DataFrame) :
    Except HttpError DataFrame :=
  if endsWithCsv filename = false then
    .error ⟨400, "El archivo debe ser un CSV."⟩
  else if m.imputer_present = false then
    .error ⟨500, "El modelo cargado no contiene \x27imputer\x27 en el pipeline."⟩
  else
    let missing := m.feature_names.filter (fun c => !(df.hasCol c))
    if missing ≠ [] then
      .error ⟨400, "Faltan columnas requeridas: " ++ joinComma missing⟩
    else
      let X_pred := df.selectCols m.feature_names
      let y_pred_proba := m.predict_proba X_pred
      let y_pred := m.predict X_pred
      let df1 := df.setCol "prob_confirme_planeta" y_pred_proba
      let df2 := df1.setCol "prediccion" y_pred
      .ok df2

theorem predict_from_csv_valid (m : PredictionModel) (filename : String) (df : DataFrame)
    (hf : endsWithCsv filename = true)
    (him : m.imputer_present = true)
    (hall : ∀ c ∈ m.feature_names, df.hasCol c = true) :
    predict_from_csv m filename df =
      .ok ((df.setCol "prob_confirme_planeta"
              (m.predict_proba (df.selectCols m.feature_names))).setCol "prediccion"
            (m.predict (df.selectCols m.feature_names))) := by
  unfold predict_from_csv
  rw [if_neg (by simp [hf]), if_neg (by simp [him])]
  have hm : m.feature_names.filter (fun c => !(df.hasCol c)) = [] := by
    rw [List.filter_eq_nil_iff]
    intro c hc
    simp [hall c hc]
  rw [hm]
  rfl

theorem setCol_not_mem (df : DataFrame) (name : String) (vals : List ℚ)
    (h : df.hasCol name = false) :
    df.setCol name vals = ⟨df.cols ++ [(name, vals)]⟩ := by
  unfold DataFrame.setCol
  rw [if_neg (by simp [h])]

theorem hasCol_mk_append (l₁ l₂ : List (String × List ℚ)) (name : String) :
    (DataFrame.mk (l₁ ++ l₂)).hasCol name =
      ((DataFrame.mk l₁).hasCol name || (DataFrame.mk l₂).hasCol name) := by
  simp [DataFrame.hasCol, List.any_append]

theorem getCol_mem (df : DataFrame) (name : String) (h : df.hasCol name = true) :
    ∃ p ∈ df.cols, p.2 = df.getCol name := by
  have hs : (df.cols.find? (fun p => p.1 == name)).isSome := by
    rw [List.find?_isSome]
    rcases List.any_eq_true.mp h with ⟨x, hx, hpx⟩
    exact ⟨x, hx, hpx⟩
  rcases Option.isSome_iff_exists.mp hs with ⟨y, hy⟩
  refine ⟨y, List.mem_of_find?_eq_some hy, ?_⟩
  unfold DataFrame.getCol
  rw [hy]

theorem find?_map_overwrite (cols : List (String × List ℚ)) (name : String) (vals : List ℚ)
    (h : cols.any (fun p => p.1 == name) = true) :
    (cols.map (fun p => if p.1 == name then (name, vals) else p)).find?
      (fun p => p.1 == name) = some (name, vals) := by
  induction cols with
  | nil => simp at h
  | cons a t ih =>
    rw [List.map_cons]
    by_cases hb : (a.1 == name) = true
    · rw [if_pos hb]
      exact List.find?_cons_of_pos _ (by simp)
    · rw [if_neg hb, List.find?_cons_of_neg _ (by simp [hb])]
      refine ih ?_
      rw [List.any_cons] at h
      simpa [hb] using h

theorem getCol_setCol_mem (df : DataFrame) (name : String) (vals : List ℚ)
    (h : df.hasCol name = true) :
    (df.setCol name vals).getCol name = vals := by
  unfold DataFrame.setCol
  rw [if_pos h]
  unfold DataFrame.getCol
  rw [find?_map_overwrite _ _ _ h]

theorem columns_setCol_mem (df : DataFrame) (name : String) (vals : List ℚ)
    (h : df.hasCol name = true) :
    (df.setCol name vals).columns = df.columns := by
  unfold DataFrame.setCol
  rw [if_pos h]
  unfold DataFrame.columns
  simp only [List.map_map]
  apply List.map_congr_left
  intro p hp
  by_cases hb : (p.1 == name) = true
  · simp [Function.comp, hb]
    exact (eq_of_beq hb).symm
  · simp [Function.comp, hb]

/-- A concrete pipeline instance usable for closed-form evaluation: it
has the expected imputer step and returns probability 0 and label 0
for every row. -/
def mkConstModel (names : List String) : PredictionModel where
  feature_names := names
  imputer_present := true
  predict_proba := fun X => (X.headD []).map (fun _ => 0)
  predict := fun X => (X.headD []).map (fun _ => 0)
  proba_unit := by
    intro X p hp
    rcases List.mem_map.mp hp with ⟨c, hc, rfl⟩
    exact ⟨le_refl 0, zero_le_one⟩
  proba_len := by
    intro X n hne hall
    cases X with
    | nil => exact absurd rfl hne
    | cons c t => simpa using hall c (List.mem_cons_self c t)
  pred_len := by
    intro X n hne hall
    cases X with
    | nil => exact absurd rfl hne
    | cons c t => simpa using hall c (List.mem_cons_self c t)

/-- A frame that already carries a `prediccion` column next to a
feature column. -/
def dfP : DataFrame := ⟨[("koi_score", [1]), ("prediccion", [5])]⟩

theorem toList_isInfix_append_left (pre : String) {x t : String}
    (h : x.toList.IsInfix t.toList) : x.toList.IsInfix (pre ++ t).toList := by
  rcases h with ⟨s₁, s₂, hs⟩
  show ∃ u v, u ++ x.toList ++ v = (pre ++ t).toList
  refine ⟨pre.toList ++ s₁, s₂, ?_⟩
  have ha : (pre ++ t).toList = pre.toList ++ t.toList := by
    simp [String.toList, String.data_append]
  rw [ha, ← hs]
  simp [List.append_assoc]

theorem mem_infix_joinComma (c : String) (l : List String) (h : c ∈ l) :
    c.toList.IsInfix (joinComma l).toList := by
  induction l with
  | nil => cases h
  | cons x xs ih =>
    cases xs with
    | nil =>
      rcases List.mem_singleton.mp h with rfl
      exact List.infix_refl _
    | cons y ys =>
      rcases List.mem_cons.mp h with rfl | hmem
      · show ∃ u v, u ++ c.toList ++ v = (joinComma (c :: y :: ys)).toList
        refine ⟨[], (", " ++ joinComma (y :: ys) : String).toList, ?_⟩
        rw [show joinComma (c :: y :: ys) = c ++ ", " ++ joinComma (y :: ys) from rfl]
        simp [String.toList, String.data_append]
      · rw [show joinComma (x :: y :: ys) = x ++ ", " ++ joinComma (y :: ys) from rfl]
        have hx := toList_isInfix_append_left ", " (ih hmem)
        have hxx := toList_isInfix_append_left x hx
        have ha : x ++ ", " ++ joinComma (y :: ys) = x ++ (", " ++ joinComma (y :: ys)) := by
          rw [String.append_assoc]
        rw [ha]
        exact hxx

/-- **C6.** Both endpoints reject a filename not ending in ".csv" with
a 400, and a table lacking required columns with a 400 whose message
names the missing column(s); these are the only 400 conditions, and an
error response carries no output frame or marker list. -/
theorem endpoints_client_errors (gfname : String) (gcols : List String)
    (gtimes : List ℚ) (gsep : Option String) (gth : Option ℚ)
    (m : PredictionModel) (pfname : String) (pdf : DataFrame) :
    (endsWithCsv gfname = false →
      csv_to_graph gfname gcols gtimes gsep gth =
        .error ⟨400, "El archivo debe ser un CSV."⟩)
    ∧ (endsWithCsv gfname = true → ¬ ("time" ∈ gcols ∧ "flux" ∈ gcols) →
      csv_to_graph gfname gcols gtimes gsep gth =
        .error ⟨400, "El CSV debe contener las columnas \x27time\x27 y \x27flux\x27."⟩
      ∧ ("time".toList.IsInfix
          ("El CSV debe contener las columnas \x27time\x27 y \x27flux\x27." : String).toList
        ∧ "flux".toList.IsInfix
          ("El CSV debe contener las columnas \x27time\x27 y \x27flux\x27." : String).toList))
    ∧ (endsWithCsv pfname = false →
      predict_from_csv m pfname pdf = .error ⟨400, "El archivo debe ser un CSV."⟩)
    ∧ (endsWithCsv pfname = true → m.imputer_present = true →
      m.feature_names.filter (fun c => !(pdf.hasCol c)) ≠ [] →
      predict_from_csv m pfname pdf =
        .error ⟨400, "Faltan columnas requeridas: " ++
          joinComma (m.feature_names.filter (fun c => !(pdf.hasCol c)))⟩
      ∧ ∀ c ∈ m.feature_names.filter (fun c => !(pdf.hasCol c)),
          c.toList.IsInfix ("Faltan columnas requeridas: " ++
            joinComma (m.feature_names.filter (fun c => !(pdf.hasCol c)))).toList)
    ∧ (∀ e, csv_to_graph gfname gcols gtimes gsep gth = .error e →
        e.status = 400 ∧ (endsWithCsv gfname = false ∨ ¬ ("time" ∈ gcols ∧ "flux" ∈ gcols)))
    ∧ (∀ e, predict_from_csv m pfname pdf = .error e → e.status = 400 →
        endsWithCsv pfname = false ∨
          m.feature_names.filter (fun c => !(pdf.hasCol c)) ≠ []) := by
  refine ⟨?_, ?_, ?_, ?_, ?_, ?_⟩
  · intro h1
    unfold csv_to_graph
    rw [if_pos h1]
  · intro h1 h2
    refine ⟨?_, by decide, by decide⟩
    unfold csv_to_graph
    rw [if_neg (by simp [h1]), if_pos h2]
  · intro h1
    unfold predict_from_csv
    rw [if_pos h1]
  · intro h1 h2 h3
    constructor
    · unfold predict_from_csv
      rw [if_neg (by simp [h1]), if_neg (by simp [h2])]
      show (if m.feature_names.filter (fun c => !(pdf.hasCol c)) ≠ [] then
          (Except.error ⟨400, "Faltan columnas requeridas: " ++
            joinComma (m.feature_names.filter (fun c => !(pdf.hasCol c)))⟩ :
              Except HttpError DataFrame)
        else Except.ok ((pdf.setCol "prob_confirme_planeta"
            (m.predict_proba (pdf.selectCols m.feature_names))).setCol "prediccion"
          (m.predict (pdf.selectCols m.feature_names)))) =
        Except.error ⟨400, "Faltan columnas requeridas: " ++
          joinComma (m.feature_names.filter (fun c => !(pdf.hasCol c)))⟩
      rw [if_pos h3]
    · intro c hc
      exact toList_isInfix_append_left "Faltan columnas requeridas: "
        (mem_infix_joinComma c _ hc)
  · intro e he
    cases hb : endsWithCsv gfname with
    | false =>
      unfold csv_to_graph at he
      rw [if_pos hb] at he
      injection he with h'
      rw [← h']
      exact ⟨rfl, Or.inl rfl⟩
    | true =>
      by_cases h2 : "time" ∈ gcols ∧ "flux" ∈ gcols
      · exfalso
        rw [csv_to_graph_valid _ _ _ _ _ hb h2] at he
        by_cases h3 : (_parse_separators gsep).isEmpty
        · rw [if_pos h3] at he
          cases he
        · rw [if_neg h3] at he
          cases he
      · unfold csv_to_graph at he
        rw [if_neg (by simp [hb]), if_pos h2] at he
        injection he with h'
        rw [← h']
        exact ⟨rfl, Or.inr h2⟩
  · intro e he h400
    cases hb : endsWithCsv pfname with
    | false => exact Or.inl rfl
    | true =>
      right
      unfold predict_from_csv at he
      rw [if_neg (by simp [hb])] at he
      cases hi : m.imputer_present with
      | false =>
        rw [if_pos hi] at he
        injection he with h'
        rw [← h'] at h400
        simp at h400
      | true =>
        rw [if_neg (by simp [hi])] at he
        by_contra hm
        rw [hm] at he
        simp at he

theorem endpoints_client_errors_witness :
    (endsWithCsv "a.txt" = false)
    ∧ csv_to_graph "a.txt" ["time"] [] none none =
        .error ⟨400, "El archivo debe ser un CSV."⟩ :=
  ⟨by decide,
    (endpoints_client_errors "a.txt" ["time"] [] none none (mkConstModel FEATURE_COLS)
      "b.csv" ⟨[]⟩).1 (by decide)⟩

/-- **C7 (counterexample).** A column-valid request whose input already
contains a `prediccion` column: the handler overwrites that column
(original values `[5]` become the model output `[0]`) and appends only
one new column, so the returned frame neither preserves every input
column nor equals the input plus exactly two new columns. -/
theorem predict_frame_preservation_cex :
    predict_from_csv (mkConstModel ["koi_score"]) "a.csv" dfP =
      .ok ⟨[("koi_score", [1]), ("prediccion", [0]), ("prob_confirme_planeta", [0])]⟩
    ∧ dfP.getCol "prediccion" = [5]
    ∧ (5 : ℚ) ≠ 0
    ∧ (("prediccion", ([5] : List ℚ)) ∈ dfP.cols)
    ∧ (("prediccion", ([5] : List ℚ)) ∉
        ([("koi_score", [1]), ("prediccion", [0]), ("prob_confirme_planeta", [0])] :
          List (String × List ℚ)))
    ∧ ([("koi_score", [(1 : ℚ)]), ("prediccion", [0]),
        ("prob_confirme_planeta", [0])] : List (String × List ℚ)).length ≠
        dfP.cols.length + 2 :=
  ⟨by decide, by decide, by decide, by decide, by decide, by decide⟩

/-- **C7 (amended).** For every column-valid prediction request whose
input does not already contain a `prob_confirme_planeta` or
`prediccion` column, the returned frame is the input frame with every
input column preserved in order, augmented with exactly the two new
columns `prob_confirme_planeta` and `prediccion`, each populated with
one value per row, and every probability lies in `[0, 1]`. -/
theorem predict_from_csv_frame (m : PredictionModel) (filename : String)
    (df : DataFrame) (n : ℕ)
    (hf : endsWithCsv filename = true)
    (him : m.imputer_present = true)
    (hfeat : m.feature_names ≠ [])
    (hall : ∀ c ∈ m.feature_names, df.hasCol c = true)
    (hlen : ∀ p ∈ df.cols, p.2.length = n)
    (hp : df.hasCol "prob_confirme_planeta" = false)
    (hq : df.hasCol "prediccion" = false) :
    predict_from_csv m filename df =
      .ok ⟨df.cols ++
        [("prob_confirme_planeta", m.predict_proba (df.selectCols m.feature_names)),
         ("prediccion", m.predict (df.selectCols m.feature_names))]⟩
    ∧ (m.predict_proba (df.selectCols m.feature_names)).length = n
    ∧ (m.predict (df.selectCols m.feature_names)).length = n
    ∧ (∀ x ∈ m.predict_proba (df.selectCols m.feature_names), 0 ≤ x ∧ x ≤ 1) := by
  have hX : ∀ col ∈ df.selectCols m.feature_names, col.length = n := by
    intro col hcol
    rcases List.mem_map.mp hcol with ⟨c, hc, rfl⟩
    rcases getCol_mem df c (hall c hc) with ⟨p, hpm, hpe⟩
    rw [← hpe]
    exact hlen p hpm
  have hXne : df.selectCols m.feature_names ≠ [] := by
    intro hcon
    exact hfeat (List.map_eq_nil_iff.mp hcon)
  refine ⟨?_, m.proba_len _ n hXne hX, m.pred_len _ n hXne hX,
    fun x hx => m.proba_unit _ x hx⟩
  rw [predict_from_csv_valid m filename df hf him hall, setCol_not_mem df _ _ hp]
  have h1 : (DataFrame.mk (df.cols ++ [("prob_confirme_planeta",
      m.predict_proba (df.selectCols m.feature_names))])).hasCol "prediccion" = false := by
    rw [hasCol_mk_append]
    have hq' : (DataFrame.mk df.cols).hasCol "prediccion" = false := hq
    rw [hq']
    simp [DataFrame.hasCol,
      show (("prob_confirme_planeta" : String) == "prediccion") = false from by decide]
  rw [setCol_not_mem _ _ _ h1]
  simp [List.append_assoc]

/-- A frame with one feature column and one unrelated extra column. -/
def dfW : DataFrame := ⟨[("koi_score", [1]), ("extra", [2])]⟩

theorem predict_from_csv_frame_witness :
    ((mkConstModel ["koi_score"]).feature_names ≠ [])
    ∧ (∀ p ∈ dfW.cols, p.2.length = 1)
    ∧ (predict_from_csv (mkConstModel ["koi_score"]) "a.csv" dfW =
        .ok ⟨dfW.cols ++
          [("prob_confirme_planeta", (mkConstModel ["koi_score"]).predict_proba
              (dfW.selectCols (mkConstModel ["koi_score"]).feature_names)),
           ("prediccion", (mkConstModel ["koi_score"]).predict
              (dfW.selectCols (mkConstModel ["koi_score"]).feature_names))]⟩
      ∧ ((mkConstModel ["koi_score"]).predict_proba
          (dfW.selectCols (mkConstModel ["koi_score"]).feature_names)).length = 1
      ∧ ((mkConstModel ["koi_score"]).predict
          (dfW.selectCols (mkConstModel ["koi_score"]).feature_names)).length = 1
      ∧ (∀ x ∈ (mkConstModel ["koi_score"]).predict_proba
          (dfW.selectCols (mkConstModel ["koi_score"]).feature_names),
          0 ≤ x ∧ x ≤ 1)) :=
  ⟨by decide, by decide,
    predict_from_csv_frame (mkConstModel ["koi_score"]) "a.csv" dfW 1
      (by decide) (by decide) (by decide) (by decide) (by decide) (by decide) (by decide)⟩

theorem getCol_mk_append_not_mem (cols : List (String × List ℚ)) (name : String)
    (v : List ℚ) (h : (DataFrame.mk cols).hasCol name = false) :
    (DataFrame.mk (cols ++ [(name, v)])).getCol name = v := by
  induction cols with
  | nil =>
    unfold DataFrame.getCol
    rw [List.nil_append, List.find?_cons_of_pos _ (by simp)]
  | cons a t ih =>
    have ha : (a.1 == name) = false := by
      have := List.any_eq_false.mp h a (List.mem_cons_self a t)
      simpa using this
    have ht : (DataFrame.mk t).hasCol name = false := by
      unfold DataFrame.hasCol at h ⊢
      rw [List.any_cons] at h
      simpa [ha] using h
    unfold DataFrame.getCol at ih ⊢
    rw [List.cons_append, List.find?_cons_of_neg _ (by simp [ha])]
    exact ih ht

theorem getCol_mk_append_other (cols : List (String × List ℚ)) (other name : String)
    (v : List ℚ) (hne : (other == name) = false) :
    (DataFrame.mk (cols ++ [(other, v)])).getCol name = (DataFrame.mk cols).getCol name := by
  induction cols with
  | nil =>
    unfold DataFrame.getCol
    rw [List.nil_append, List.find?_cons_of_neg _ (by simp [hne])]
  | cons a t ih =>
    unfold DataFrame.getCol at ih ⊢
    by_cases hn : (a.1 == name) = true
    · rw [List.cons_append, List.find?_cons_of_pos _ (by exact hn),
        List.find?_cons_of_pos _ (by exact hn)]
    · rw [List.cons_append, List.find?_cons_of_neg _ (by simp [hn]),
        List.find?_cons_of_neg _ (by simp [hn])]
      exact ih

theorem find?_map_overwrite_other {other name : String} (v : List ℚ)
    (cols : List (String × List ℚ)) (hne : (other == name) = false) :
    List.find? (fun p => p.1 == name)
      (cols.map (fun p => if p.1 == other then (other, v) else p)) =
      List.find? (fun p => p.1 == name) cols := by
  induction cols with
  | nil => rfl
  | cons a t ih =>
    rw [List.map_cons]
    by_cases ho : (a.1 == other) = true
    · rw [if_pos ho]
      have ha : a.1 = other := eq_of_beq ho
      rw [List.find?_cons_of_neg _ (by simp [hne]),
        List.find?_cons_of_neg _ (by simp [ha, hne]), ih]
    · rw [if_neg ho]
      by_cases hn : (a.1 == name) = true
      · rw [List.find?_cons_of_pos _ (by exact hn), List.find?_cons_of_pos _ (by exact hn)]
      · rw [List.find?_cons_of_neg _ (by simp [hn]),
          List.find?_cons_of_neg _ (by simp [hn]), ih]

/-- `df[name] = v` followed by `df[name]` reads back `v`, whether the
column pre-existed (in-place overwrite) or not (append). -/
theorem getCol_setCol_same (df : DataFrame) (name : String) (v : List ℚ) :
    (df.setCol name v).getCol name = v := by
  cases hc : df.hasCol name with
  | true => exact getCol_setCol_mem df name v hc
  | false =>
    rw [setCol_not_mem df name v hc]
    exact getCol_mk_append_not_mem df.cols name v hc

/-- Assigning one column leaves every differently-named column's values
unchanged, whether the assignment overwrote or appended. -/
theorem getCol_setCol_other (df : DataFrame) (other name : String) (v : List ℚ)
    (hne : (other == name) = false) :
    (df.setCol other v).getCol name = df.getCol name := by
  unfold DataFrame.setCol
  by_cases hc : df.hasCol other = true
  · rw [if_pos hc]
    unfold DataFrame.getCol
    rw [find?_map_overwrite_other v df.cols hne]
  · rw [if_neg hc]
    exact getCol_mk_append_other df.cols other name v hne

/-- A frame that already carries a `prob_confirme_planeta` column next
to a feature column. -/
def dfQ : DataFrame := ⟨[("koi_score", [1]), ("prob_confirme_planeta", [7])]⟩

/-- **C10.** For every valid prediction request the handler assigns
both output columns from the model, so a pre-existing
`prob_confirme_planeta` or `prediccion` column has its original values
overwritten by the model outputs rather than preserved, and for such
inputs not every input column survives unchanged: concretely, a frame
with `prediccion = [5]` comes back with `prediccion = [0]` and a frame
with `prob_confirme_planeta = [7]` comes back with
`prob_confirme_planeta = [0]`, in both cases losing the original input
column. -/
theorem predict_overwrites_existing_column (m : PredictionModel) (filename : String)
    (df : DataFrame)
    (hf : endsWithCsv filename = true)
    (him : m.imputer_present = true)
    (hall : ∀ c ∈ m.feature_names, df.hasCol c = true) :
    (predict_from_csv m filename df).map (fun d => d.getCol "prob_confirme_planeta") =
      .ok (m.predict_proba (df.selectCols m.feature_names))
    ∧ (predict_from_csv m filename df).map (fun d => d.getCol "prediccion") =
      .ok (m.predict (df.selectCols m.feature_names))
    ∧ (dfP.getCol "prediccion" = [5]
      ∧ predict_from_csv (mkConstModel ["koi_score"]) "a.csv" dfP =
          .ok ⟨[("koi_score", [1]), ("prediccion", [0]), ("prob_confirme_planeta", [0])]⟩
      ∧ ("prediccion", ([5] : List ℚ)) ∈ dfP.cols
      ∧ ("prediccion", ([5] : List ℚ)) ∉
          ([("koi_score", [(1 : ℚ)]), ("prediccion", [0]), ("prob_confirme_planeta", [0])] :
            List (String × List ℚ)))
    ∧ (dfQ.getCol "prob_confirme_planeta" = [7]
      ∧ predict_from_csv (mkConstModel ["koi_score"]) "a.csv" dfQ =
          .ok ⟨[("koi_score", [1]), ("prob_confirme_planeta", [0]), ("prediccion", [0])]⟩
      ∧ ("prob_confirme_planeta", ([7] : List ℚ)) ∈ dfQ.cols
      ∧ ("prob_confirme_planeta", ([7] : List ℚ)) ∉
          ([("koi_score", [(1 : ℚ)]), ("prob_confirme_planeta", [0]), ("prediccion", [0])] :
            List (String × List ℚ))) := by
  have hkey := predict_from_csv_valid m filename df hf him hall
  refine ⟨?_, ?_, by decide, by decide⟩
  · rw [hkey]
    show Except.ok (DataFrame.getCol _ "prob_confirme_planeta") = _
    rw [getCol_setCol_other _ _ _ _ (by decide), getCol_setCol_same]
  · rw [hkey]
    show Except.ok (DataFrame.getCol _ "prediccion") = _
    rw [getCol_setCol_same]

theorem predict_overwrites_existing_column_witness :
    (endsWithCsv "a.csv" = true)
    ∧ (∀ c ∈ (mkConstModel ["koi_score"]).feature_names, dfP.hasCol c = true)
    ∧ (predict_from_csv (mkConstModel ["koi_score"]) "a.csv" dfP).map
        (fun d => d.getCol "prediccion") =
      .ok ((mkConstModel ["koi_score"]).predict
        (dfP.selectCols (mkConstModel ["koi_score"]).feature_names)) :=
  ⟨by decide, by decide,
    (predict_overwrites_existing_column (mkConstModel ["koi_score"]) "a.csv" dfP
      (by decide) (by decide) (by decide)).2.1⟩

end Nasa
